import Mathlib

/-!
Verification of the UnifiedStay calendar-reconciliation core against its
specification.  The definitions below are a shallow embedding of the
TypeScript source:

* `detectConflicts`  — apps/api/src/modules/calendar/calendar.service.ts,
  `CalendarService.detectConflicts` (group by unit, sort by check-in,
  O(n^2) pairwise overlap scan).
* `parseICalData`, `syncCalendar` — apps/api/src/adapters/ical.adapter.ts,
  `ICalAdapter` (feed parsing and per-connection reconciliation).
* `runSync` — the `SyncScheduler` (single-flight batch driver).
* `createReservation` — `CalendarService.createReservation` (manual
  reservation creation with a double-booking check).

Timestamps (JS `Date.getTime()`) are modelled as `Int`; database rows are
lists; the database client is modelled as total state-passing (in the
source, persistence calls are awaited Prisma operations whose failures are
out of scope of the claims below).  Nondeterministic inputs (the HTTP
fetch outcome, `crypto.randomUUID()`) are passed in as explicit
parameters.
-/

namespace UnifiedStay

/-- A calendar event as consumed by `detectConflicts`: the projection of a
reservation or availability block to the fields the detector reads
(`id`, `unitId`, `checkIn`, `checkOut`). -/
structure CalendarEvent where
  id : String
  unitId : String
  checkIn : Int
  checkOut : Int
deriving DecidableEq, Repr

/-- A detected conflict: the two overlapping events plus the overlap
sub-interval, as pushed by `detectConflicts`. -/
structure ConflictInfo where
  eventA : CalendarEvent
  eventB : CalendarEvent
  overlapStart : Int
  overlapEnd : Int
deriving DecidableEq, Repr

/-- The overlap test of `detectConflicts`: `aStart < bEnd && bStart < aEnd`
(half-open interval semantics). -/
def overlapTest (a b : CalendarEvent) : Bool :=
  a.checkIn < b.checkOut && b.checkIn < a.checkOut

/-- The conflict record pushed by `detectConflicts` on an overlap:
`overlapStart = max(aStart, bStart)`, `overlapEnd = min(aEnd, bEnd)`. -/
def mkConflict (a b : CalendarEvent) : ConflictInfo :=
  { eventA := a, eventB := b,
    overlapStart := max a.checkIn b.checkIn,
    overlapEnd := min a.checkOut b.checkOut }

/-- The inner double loop of `detectConflicts`: for every `i < j` in the
(already sorted) per-unit list, push a conflict when the overlap test
passes, with `eventA` the earlier-indexed event. -/
def scanPairs : List CalendarEvent → List ConflictInfo
  | [] => []
  | e :: rest =>
      (rest.filter (fun f => overlapTest e f)).map (fun f => mkConflict e f)
        ++ scanPairs rest

/-- The per-unit sort `unitEvents.sort((a, b) => a.checkIn - b.checkIn)`,
modelled as insertion sort by check-in (a permutation of the input sorted
ascending by `checkIn`; the spec notes the tie-break is irrelevant). -/
def sortByCheckIn (l : List CalendarEvent) : List CalendarEvent :=
  l.insertionSort (fun a b => a.checkIn ≤ b.checkIn)

/-- One step of building the `Map<string, CalendarEvent[]>` keyed by
`unitId`: JS `Map` iteration order is insertion order of keys, and each
event is pushed to the back of its unit bucket. -/
def groupInsert (e : CalendarEvent) :
    List (String × List CalendarEvent) → List (String × List CalendarEvent)
  | [] => [(e.unitId, [e])]
  | (u, g) :: rest =>
      if u = e.unitId then (u, g ++ [e]) :: rest
      else (u, g) :: groupInsert e rest

/-- The `eventsByUnit` map of `detectConflicts`, built by iterating the
input list in order. -/
def groupByUnit (evs : List CalendarEvent) : List (String × List CalendarEvent) :=
  evs.foldl (fun acc e => groupInsert e acc) []

/-- `CalendarService.detectConflicts`: group events by unit, sort each
group by check-in, and scan all `i < j` pairs for overlaps. -/
def detectConflicts (evs : List CalendarEvent) : List ConflictInfo :=
  (groupByUnit evs).flatMap (fun p => scanPairs (sortByCheckIn p.2))

/-- Whether a conflict record mentions the unordered id pair `{x, y}`. -/
def mentionsPair (x y : String) (c : ConflictInfo) : Bool :=
  (c.eventA.id == x && c.eventB.id == y) || (c.eventA.id == y && c.eventB.id == x)

/-- Lookup of the bucket for key `u` in the association list representing
the `eventsByUnit` map (proof-side accessor). -/
def findGroup (u : String) (l : List (String × List CalendarEvent)) :
    List CalendarEvent :=
  match l.find? (fun p => p.1 == u) with
  | some p => p.2
  | none => []

/-- Concrete event on unit `u1` over `[1, 3)`. -/
def evA : CalendarEvent := { id := "a", unitId := "uX", checkIn := 1, checkOut := 3 }

/-- Concrete event on unit `u1` over `[2, 4)`, overlapping `evA`. -/
def evB : CalendarEvent := { id := "b", unitId := "uX", checkIn := 2, checkOut := 4 }

/-! ## Reconciler data model (ical.adapter.ts and the Prisma rows it touches) -/

/-- A row of the `Reservation` table, restricted to the columns the
reconciler and the calendar service read or write. -/
structure Reservation where
  id : String
  unitId : String
  channel : String
  externalId : Option String
  guestName : String
  checkIn : Int
  checkOut : Int
  status : String
deriving DecidableEq, Repr

/-- A row of the `AvailabilityBlock` table (interval fields only). -/
structure AvailabilityBlock where
  id : String
  unitId : String
  blockType : String
  startDate : Int
  endDate : Int
deriving DecidableEq, Repr

/-- A row of the `SyncLog` table as written by `syncCalendar`. -/
structure SyncLog where
  channelMappingId : String
  status : String
  eventsFound : Nat
  eventsCreated : Nat
  eventsUpdated : Nat
  error : Option String
  completedAt : Int
deriving DecidableEq, Repr

/-- A `ChannelMapping` row together with the property data the scheduler
`include`s (`property.name` and the ids of `property.units`). -/
structure ChannelMapping where
  id : String
  channel : String
  iCalUrl : Option String
  lastSyncAt : Option Int
  lastSyncError : Option String
  propertyName : String
  propertyUnits : List String
deriving DecidableEq, Repr

/-- A row of the `Unit` table joined with its property owner, as read by
`createReservation`'s ownership check (`unit.property.userId`). -/
structure UnitRow where
  id : String
  ownerId : String
deriving DecidableEq, Repr

/-- The relational store visited by the adapter, scheduler and calendar
service.  `nextId` feeds fresh primary keys for created reservations (the
source delegates id generation to Prisma/cuid; only freshness patterns are
relied on, never concrete values). -/
structure DB where
  reservations : List Reservation
  blocks : List AvailabilityBlock
  syncLogs : List SyncLog
  channelMappings : List ChannelMapping
  units : List UnitRow
  nextId : Nat
deriving DecidableEq, Repr

/-- One VEVENT as surfaced by the `ical.js` wrapper: each of `uid`,
`summary`, `startDate`, `endDate` may be absent. -/
structure VEvent where
  uid : Option String
  summary : Option String
  startDate : Option Int
  endDate : Option Int
deriving DecidableEq, Repr

/-- The outcome of `ICAL.parse` on the fetched text: either the whole
document is unparsable (the parser throws) or it yields a list of VEVENT
subcomponents. -/
inductive ICalDoc where
  | unparsable
  | parsed (vevents : List VEvent)
deriving DecidableEq, Repr

/-- The normalized event record built by `parseICalData`. -/
structure ICalEvent where
  uid : String
  summary : String
  dtstart : Int
  dtend : Int
deriving DecidableEq, Repr

/-- The outcome of `fetch(mapping.iCalUrl)` followed by `.text()`:
a transport failure (the promise rejects with some message), a non-2xx
response (the code throws `Failed to fetch iCal: <status>`), or a body
that `ICAL.parse` is then applied to. -/
inductive FetchResult where
  | noResponse (msg : String)
  | httpError (status : Nat)
  | ok (doc : ICalDoc)
deriving DecidableEq, Repr

/-- The error message the `catch` block of `syncCalendar` observes for a
failed fetch. -/
def fetchErrorMessage : FetchResult → String
  | .noResponse msg => msg
  | .httpError status => "Failed to fetch iCal: " ++ toString status
  | .ok _ => ""

/-- The `CalendarSyncResult` record returned by `syncCalendar`
(`added`/`updated` alias the created/updated counts). -/
structure CalendarSyncResult where
  success : Bool
  eventsFound : Nat
  eventsCreated : Nat
  eventsUpdated : Nat
  added : Nat
  updated : Nat
  error : Option String
deriving DecidableEq, Repr

/-- `event.summary || 'Blocked'` in `parseICalData`: a missing or empty
SUMMARY becomes the literal `"Blocked"`. -/
def canonicalSummary (v : VEvent) : String :=
  match v.summary with
  | none => "Blocked"
  | some t => if t = "" then "Blocked" else t

/-- `event.uid || crypto.randomUUID()` in `parseICalData`: a missing or
empty UID is replaced by a synthetic uid; the random supply is modelled
as an explicit function of the event's position. -/
def canonicalUid (freshUid : Nat → String) (i : Nat) (v : VEvent) : String :=
  match v.uid with
  | none => freshUid i
  | some u => if u = "" then freshUid i else u

/-- The VEVENT loop of `parseICalData`: skip events lacking a resolvable
start or end, otherwise normalize uid/summary/dates. -/
def parseVEvents (freshUid : Nat → String) : Nat → List VEvent → List ICalEvent
  | _, [] => []
  | i, v :: rest =>
      match v.startDate, v.endDate with
      | some s, some e =>
          { uid := canonicalUid freshUid i v, summary := canonicalSummary v,
            dtstart := s, dtend := e } :: parseVEvents freshUid (i + 1) rest
      | some _, none => parseVEvents freshUid (i + 1) rest
      | none, some _ => parseVEvents freshUid (i + 1) rest
      | none, none => parseVEvents freshUid (i + 1) rest

/-- `ICalAdapter.parseICalData`: an unparsable document is caught and
yields an empty event list (the error is only logged to the console);
otherwise the VEVENTs are normalized one by one. -/
def parseICalData (freshUid : Nat → String) : ICalDoc → List ICalEvent
  | .unparsable => []
  | .parsed vs => parseVEvents freshUid 0 vs

/-- `db.reservation.findFirst({ where: { channel, externalId } })`. -/
def findReservation (db : DB) (channel extId : String) : Option Reservation :=
  db.reservations.find? (fun r => r.channel == channel && r.externalId == some extId)

/-- `event.summary || 'Guest'` in the create/update payloads of
`syncCalendar`. -/
def summaryOrGuest (s : String) : String :=
  if s = "" then "Guest" else s

/-- `db.reservation.update({ where: { id }, data: { checkIn, checkOut,
guestName } })`. -/
def updateReservationRow (db : DB) (rid : String) (ci co : Int) (gn : String) : DB :=
  { db with reservations := db.reservations.map (fun r =>
      if r.id = rid then { r with checkIn := ci, checkOut := co, guestName := gn }
      else r) }

/-- `db.reservation.create` for a channel-sourced reservation
(status 'confirmed', dates and guest name from the event). -/
def createReservationRow (db : DB) (unitId channel extId gn : String)
    (ci co : Int) : DB :=
  { db with
    reservations := db.reservations ++
      [{ id := "res-" ++ toString db.nextId, unitId := unitId, channel := channel,
         externalId := some extId, guestName := gn, checkIn := ci, checkOut := co,
         status := "confirmed" }],
    nextId := db.nextId + 1 }

/-- `db.syncLog.create`. -/
def appendSyncLog (db : DB) (log : SyncLog) : DB :=
  { db with syncLogs := db.syncLogs ++ [log] }

/-- Accumulator of the per-event loop of `syncCalendar`:
the mutable `eventsCreated`/`eventsUpdated` counters and the store. -/
structure RunAcc where
  created : Nat
  updated : Nat
  db : DB
deriving DecidableEq, Repr

/-- The body of `for (const event of events)` in `syncCalendar`: look the
event up by `(channel, externalId)` with `externalId = channel + '-' + uid`;
update in place when the dates changed, do nothing when they are equal,
create a confirmed reservation when absent. -/
def processEvent (channel unitId : String) (acc : RunAcc) (event : ICalEvent) :
    RunAcc :=
  match findReservation acc.db channel (channel ++ "-" ++ event.uid) with
  | some existing =>
      if existing.checkIn ≠ event.dtstart ∨ existing.checkOut ≠ event.dtend then
        { acc with
          updated := acc.updated + 1,
          db := updateReservationRow acc.db existing.id event.dtstart event.dtend
            (summaryOrGuest event.summary) }
      else acc
  | none =>
      { acc with
        created := acc.created + 1,
        db := createReservationRow acc.db unitId channel
          (channel ++ "-" ++ event.uid)
          (summaryOrGuest event.summary) event.dtstart event.dtend }

/-- The list of canonical events a fetch outcome produces (none on a
transport or HTTP failure, `parseICalData` of the body otherwise). -/
def eventsOf (freshUid : Nat → String) : FetchResult → List ICalEvent
  | .ok doc => parseICalData freshUid doc
  | .noResponse _ => []
  | .httpError _ => []

/-- `ICalAdapter.syncCalendar`: guard on a configured URL, fetch, parse,
reconcile every event, then append a SyncLog and return the result.  A
fetch failure lands in the `catch` block: a failed SyncLog is appended and
a `success := false` result carrying the error message is returned (the
store operations themselves are modelled as total, so the catch is
reachable only through the fetch).  `now` stands for `new Date()` in the
log rows. -/
def syncCalendar (mapping : ChannelMapping) (unitId : String)
    (fetch : FetchResult) (freshUid : Nat → String) (now : Int) (db : DB) :
    CalendarSyncResult × DB :=
  match mapping.iCalUrl with
  | none =>
      ({ success := false, eventsFound := 0, eventsCreated := 0, eventsUpdated := 0,
         added := 0, updated := 0, error := some "No iCal URL configured" }, db)
  | some _ =>
      match fetch with
      | .ok doc =>
          let events := parseICalData freshUid doc
          let acc := events.foldl (processEvent mapping.channel unitId)
            { created := 0, updated := 0, db := db }
          let db2 := appendSyncLog acc.db
            { channelMappingId := mapping.id, status := "success",
              eventsFound := events.length, eventsCreated := acc.created,
              eventsUpdated := acc.updated, error := none, completedAt := now }
          ({ success := true, eventsFound := events.length,
             eventsCreated := acc.created, eventsUpdated := acc.updated,
             added := acc.created, updated := acc.updated, error := none }, db2)
      | failure =>
          let msg := fetchErrorMessage failure
          let db2 := appendSyncLog db
            { channelMappingId := mapping.id, status := "failed",
              eventsFound := 0, eventsCreated := 0, eventsUpdated := 0,
              error := some msg, completedAt := now }
          ({ success := false, eventsFound := 0, eventsCreated := 0,
             eventsUpdated := 0, added := 0, updated := 0, error := some msg }, db2)

/-! ## Sync scheduler (SyncScheduler.runSync) -/

/-- One entry of the scheduler's per-connection result list. -/
structure SyncResult where
  channelId : String
  propertyName : String
  channel : String
  success : Bool
  eventsAdded : Nat
  eventsUpdated : Nat
  error : Option String
deriving DecidableEq, Repr

/-- The scheduler's mutable fields (`isRunning`, `lastRunAt`,
`lastResults`) together with the store it drives. -/
structure SchedulerState where
  isRunning : Bool
  lastRunAt : Option Int
  lastResults : List SyncResult
  db : DB
deriving DecidableEq, Repr

/-- `db.channelMapping.update({ where: { id }, data })`. -/
def updateMapping (db : DB) (mid : String) (f : ChannelMapping → ChannelMapping) :
    DB :=
  { db with channelMappings := db.channelMappings.map (fun m =>
      if m.id = mid then f m else m) }

/-- The loop body of `runSync` for one channel mapping: resolve the
property's first unit (a missing unit is a per-connection failure),
run `syncCalendar`, then unconditionally set `lastSyncAt` to the current
time and `lastSyncError` to the run's error, and record the
per-connection result (`success: !syncResult.error`).  The `catch` arm of
the source loop is reachable only if a store operation throws, which the
embedding models as total. -/
def processMapping (fetches : String → FetchResult) (freshUid : Nat → String)
    (now : Int) (acc : List SyncResult × DB) (m : ChannelMapping) :
    List SyncResult × DB :=
  match m.propertyUnits.head? with
  | none =>
      (acc.1 ++ [{ channelId := m.id, propertyName := m.propertyName,
                   channel := m.channel, success := false, eventsAdded := 0,
                   eventsUpdated := 0,
                   error := some "No unit found for property" }], acc.2)
  | some unit =>
      let run := syncCalendar m unit (fetches m.id) freshUid now acc.2
      let db2 := updateMapping run.2 m.id (fun mm =>
        { mm with lastSyncAt := some now, lastSyncError := run.1.error })
      (acc.1 ++ [{ channelId := m.id, propertyName := m.propertyName,
                   channel := m.channel, success := run.1.error.isNone,
                   eventsAdded := run.1.added, eventsUpdated := run.1.updated,
                   error := run.1.error }], db2)

/-- `SyncScheduler.runSync`: if a batch is already running, return the
cached `lastResults` without touching anything; otherwise mark Running,
stamp `lastRunAt`, process every mapping with a non-null feed URL, and in
the `finally` clear the Running flag and publish the results. -/
def runSync (fetches : String → FetchResult) (freshUid : Nat → String)
    (now : Int) (s : SchedulerState) : List SyncResult × SchedulerState :=
  if s.isRunning then (s.lastResults, s)
  else
    let mappings := s.db.channelMappings.filter (fun m => m.iCalUrl.isSome)
    let batch := mappings.foldl (processMapping fetches freshUid now) ([], s.db)
    (batch.1,
      { isRunning := false, lastRunAt := some now, lastResults := batch.1,
        db := batch.2 })

/-! ## Manual reservation creation (CalendarService.createReservation) -/

/-- The shape of `CreateReservationInput` (zod `createReservationSchema`). -/
structure CreateReservationInput where
  unitId : String
  channel : String
  guestName : String
  checkIn : Int
  checkOut : Int
  totalAmount : Option Int
  externalId : Option String
deriving DecidableEq, Repr

/-- Modelled from the spec: the `status` column default the Prisma schema
applies when `createReservation` omits it (the schema file is not part of
the sources; the spec only fixes the enumeration).  No theorem below
depends on the concrete value. -/
def defaultReservationStatus : String := "pending"

/-- The conflict predicate of `createReservation`'s `findMany` query:
same unit, status in `{confirmed, pending}`, and
`checkIn < input.checkOut && checkOut > input.checkIn`. -/
def reservationConflict (input : CreateReservationInput) (r : Reservation) : Bool :=
  r.unitId == input.unitId &&
    (r.status == "confirmed" || r.status == "pending") &&
    (r.checkIn < input.checkOut && r.checkOut > input.checkIn)

/-- `CalendarService.createReservation`: verify the unit belongs to the
user, reject when any confirmed/pending reservation on the unit overlaps
the requested interval (availability blocks are never queried), otherwise
persist the reservation. -/
def createReservation (userId : String) (input : CreateReservationInput)
    (db : DB) : Except String (Reservation × DB) :=
  match db.units.find? (fun u => u.id == input.unitId && u.ownerId == userId) with
  | none => .error "Unit not found"
  | some _ =>
      let existing := db.reservations.filter (reservationConflict input)
      if existing.length > 0 then .error "Dates conflict with existing reservation"
      else
        let newRes : Reservation :=
          { id := "res-" ++ toString db.nextId, unitId := input.unitId,
            channel := input.channel, externalId := input.externalId,
            guestName := input.guestName, checkIn := input.checkIn,
            checkOut := input.checkOut, status := defaultReservationStatus }
        .ok (newRes,
          { db with reservations := db.reservations ++ [newRes],
                    nextId := db.nextId + 1 })

/-- Whether a fetched event is bit-identical to the stored reservation its
dedup key maps to: the lookup succeeds and check-in, check-out and guest
name all coincide with what the reconciler would write. -/
def matchesStored (db : DB) (channel : String) (e : ICalEvent) : Bool :=
  (findReservation db channel (channel ++ "-" ++ e.uid)).any
    (fun r => r.checkIn == e.dtstart && r.checkOut == e.dtend &&
      r.guestName == summaryOrGuest e.summary)

/-- Two reservations collide on the dedup key: same channel, same present
external id. -/
def sameExternalKey (r1 r2 : Reservation) : Bool :=
  r1.channel == r2.channel && r1.externalId == r2.externalId &&
    r1.externalId.isSome

/-- The invariant of claim C3: no two reservation rows share a channel
together with a present external id. -/
def UniqueExternalIds (db : DB) : Prop :=
  db.reservations.Pairwise (fun r1 r2 => sameExternalKey r1 r2 = false)

/-- The reservation's key has the `<channel>-<uid>` shape for some fetched
event. -/
def keyFromFeed (channel : String) (events : List ICalEvent)
    (r : Reservation) : Prop :=
  ∃ e ∈ events, r.channel = channel ∧
    r.externalId = some (channel ++ "-" ++ e.uid)

/-! ## Concrete fixtures used by witnesses and counterexamples -/

/-- A deterministic stand-in for the `crypto.randomUUID()` supply. -/
def sampleFresh : Nat → String := fun n => "uuid-" ++ toString n

/-- An empty store. -/
def emptyDB : DB :=
  { reservations := [], blocks := [], syncLogs := [], channelMappings := [],
    units := [], nextId := 0 }

/-- A channel mapping with a configured feed URL and one unit. -/
def sampleMapping : ChannelMapping :=
  { id := "cm1", channel := "airbnb", iCalUrl := some "https://feed.example/cal.ics",
    lastSyncAt := none, lastSyncError := none, propertyName := "Beach House",
    propertyUnits := ["u1"] }

/-- A well-formed VEVENT. -/
def sampleVEvent : VEvent :=
  { uid := some "ev1", summary := some "Alice", startDate := some 10,
    endDate := some 20 }

/-- A scheduler state mid-batch, with a cached result list. -/
def busyState : SchedulerState :=
  { isRunning := true, lastRunAt := some 50,
    lastResults := [{ channelId := "cm1", propertyName := "Beach House",
                      channel := "airbnb", success := true, eventsAdded := 2,
                      eventsUpdated := 0, error := none }],
    db := { emptyDB with channelMappings := [sampleMapping] } }

/-- An idle scheduler state over the same store. -/
def idleState : SchedulerState :=
  { isRunning := false, lastRunAt := none, lastResults := [],
    db := { emptyDB with channelMappings := [sampleMapping] } }

/-- A scheduler state with one never-synced mapping. -/
def failedState : SchedulerState :=
  { isRunning := false, lastRunAt := none, lastResults := [],
    db := { emptyDB with channelMappings := [sampleMapping] } }

/-- A stored channel reservation for uid `ev1` with guest `Old Name`. -/
def oldRes : Reservation :=
  { id := "r1", unitId := "u1", channel := "airbnb",
    externalId := some "airbnb-ev1", guestName := "Old Name", checkIn := 0,
    checkOut := 10, status := "confirmed" }

/-- The same event fetched again with an unchanged interval but a new
title. -/
def titleVEvent : VEvent :=
  { uid := some "ev1", summary := some "New Name", startDate := some 0,
    endDate := some 10 }

/-- The `ev1` event fetched with moved dates. -/
def movedVEvent : VEvent :=
  { uid := some "ev1", summary := some "Alice Moved", startDate := some 5,
    endDate := some 12 }

/-- A VEVENT with no SUMMARY at all. -/
def noTitleVEvent : VEvent :=
  { uid := some "b1", summary := none, startDate := some 0, endDate := some 5 }

/-- A VEVENT whose interval is inverted (start after end). -/
def invalidVEvent : VEvent :=
  { uid := some "x1", summary := some "Sam", startDate := some 5,
    endDate := some 3 }

/-- A store whose single unit `u1` belongs to user `me`. -/
def ownedUnitDB : DB := { emptyDB with units := [{ id := "u1", ownerId := "me" }] }

/-- A confirmed reservation occupying `[0, 10)` on unit `u1`. -/
def existingRes : Reservation :=
  { id := "r1", unitId := "u1", channel := "direct", externalId := none,
    guestName := "Bob", checkIn := 0, checkOut := 10, status := "confirmed" }

/-- An availability block occupying `[0, 10)` on unit `u1`. -/
def overlapBlock : AvailabilityBlock :=
  { id := "b1", unitId := "u1", blockType := "blocked", startDate := 0,
    endDate := 10 }

/-- A creation request for `[5, 15)` on unit `u1`, overlapping both of the
fixtures above. -/
def requestInput : CreateReservationInput :=
  { unitId := "u1", channel := "direct", guestName := "Zoe", checkIn := 5,
    checkOut := 15, totalAmount := none, externalId := none }

/-! ## Lemmas and claim theorems -/

lemma overlapTest_comm (a b : CalendarEvent) : overlapTest a b = overlapTest b a := by
  simp [overlapTest, Bool.and_comm]

lemma sortByCheckIn_perm (l : List CalendarEvent) : (sortByCheckIn l).Perm l := by
  rw [sortByCheckIn]
  exact List.perm_insertionSort _ l

lemma countP_ext {α : Type} {l : List α} {p q : α → Bool}
    (h : ∀ a ∈ l, p a = q a) : l.countP p = l.countP q := by
  induction l with
  | nil => rfl
  | cons e rest ih =>
      rw [List.countP_cons, List.countP_cons, h e (List.mem_cons_self e rest),
        ih (fun a hx => h a (List.mem_cons_of_mem e hx))]

lemma scanPairs_shape {l : List CalendarEvent} {c : ConflictInfo}
    (hc : c ∈ scanPairs l) :
    c.eventA ∈ l ∧ c.eventB ∈ l ∧ overlapTest c.eventA c.eventB = true ∧
      c = mkConflict c.eventA c.eventB := by
  induction l with
  | nil => simp [scanPairs] at hc
  | cons e rest ih =>
      simp only [scanPairs, List.mem_append, List.mem_map, List.mem_filter] at hc
      rcases hc with ⟨f, ⟨hf, hov⟩, rfl⟩ | hc
      · refine ⟨List.mem_cons_self _ _, List.mem_cons_of_mem _ hf, ?_, rfl⟩
        simpa [mkConflict] using hov
      · obtain ⟨h1, h2, h3, h4⟩ := ih hc
        exact ⟨List.mem_cons_of_mem _ h1, List.mem_cons_of_mem _ h2, h3, h4⟩

lemma mem_id_unique {l : List CalendarEvent}
    (h : (l.map CalendarEvent.id).Nodup) {a x : CalendarEvent}
    (ha : a ∈ l) (hx : x ∈ l) (hid : x.id = a.id) : x = a := by
  induction l with
  | nil => cases ha
  | cons e rest ih =>
      rw [List.map_cons, List.nodup_cons] at h
      obtain ⟨he, hrest⟩ := h
      rcases List.mem_cons.mp ha with rfl | ha' <;>
        rcases List.mem_cons.mp hx with rfl | hx'
      · rfl
      · exact absurd (hid ▸ List.mem_map_of_mem CalendarEvent.id hx') he
      · exact absurd (hid ▸ List.mem_map_of_mem CalendarEvent.id ha') he
      · exact ih hrest ha' hx'

lemma countP_id_q {l : List CalendarEvent} {b : CalendarEvent}
    (q : CalendarEvent → Bool) (hn : (l.map CalendarEvent.id).Nodup)
    (hb : b ∈ l) :
    l.countP (fun f => (f.id == b.id) && q f) = if q b then 1 else 0 := by
  induction l with
  | nil => cases hb
  | cons e rest ih =>
      rw [List.map_cons, List.nodup_cons] at hn
      obtain ⟨he, hrest⟩ := hn
      rcases List.mem_cons.mp hb with rfl | hb'
      · rw [List.countP_cons]
        have h0 : rest.countP (fun f => (f.id == b.id) && q f) = 0 := by
          refine List.countP_eq_zero.mpr ?_
          intro f hf
          simp only [Bool.and_eq_true, beq_iff_eq, not_and]
          intro hfe _
          exact he (hfe ▸ List.mem_map_of_mem CalendarEvent.id hf)
        rw [h0]
        simp
      · have hne : (e.id == b.id) = false := by
          refine beq_eq_false_iff_ne.mpr ?_
          intro hcontra
          exact he (hcontra ▸ List.mem_map_of_mem CalendarEvent.id hb')
        rw [List.countP_cons, ih hrest hb']
        simp [hne]

lemma scanPairs_head_count (e : CalendarEvent) (rest : List CalendarEvent)
    (p : ConflictInfo → Bool) :
    ((rest.filter (fun f => overlapTest e f)).map
        (fun f => mkConflict e f)).countP p
      = rest.countP (fun f => p (mkConflict e f) && overlapTest e f) := by
  induction rest with
  | nil => rfl
  | cons f rest ih =>
      rw [List.filter_cons]
      by_cases h : overlapTest e f = true
      · rw [if_pos h, List.map_cons, List.countP_cons, ih, List.countP_cons, h]
        simp
      · rw [if_neg h, ih, List.countP_cons]
        have hf : (p (mkConflict e f) && overlapTest e f) = false := by
          rw [Bool.not_eq_true] at h
          simp [h]
        rw [hf]
        simp

lemma scanPairs_countP {l : List CalendarEvent} {a b : CalendarEvent}
    (hn : (l.map CalendarEvent.id).Nodup) (ha : a ∈ l) (hb : b ∈ l)
    (hne : a.id ≠ b.id) :
    (scanPairs l).countP (mentionsPair a.id b.id) =
      if overlapTest a b then 1 else 0 := by
  induction l with
  | nil => cases ha
  | cons e rest ih =>
      rw [List.map_cons, List.nodup_cons] at hn
      obtain ⟨he, hrest⟩ := hn
      rw [scanPairs, List.countP_append, scanPairs_head_count]
      rcases List.mem_cons.mp ha with rfl | ha' <;>
        rcases List.mem_cons.mp hb with rfl | hb'
      · exact absurd rfl hne
      · -- a is the head event
        have hx : (a.id == b.id) = false := beq_eq_false_iff_ne.mpr hne
        have hstep : rest.countP
              (fun f => mentionsPair a.id b.id (mkConflict a f) && overlapTest a f)
            = rest.countP (fun f => (f.id == b.id) && overlapTest a f) := by
          refine countP_ext ?_
          intro f _
          simp [mentionsPair, mkConflict, hx]
        have htail : (scanPairs rest).countP (mentionsPair a.id b.id) = 0 := by
          refine List.countP_eq_zero.mpr ?_
          intro c hc
          obtain ⟨hA, hB, _, _⟩ := scanPairs_shape hc
          simp only [mentionsPair, Bool.or_eq_true, Bool.and_eq_true, beq_iff_eq,
            not_or, not_and]
          constructor
          · intro h1 _
            exact he (h1 ▸ List.mem_map_of_mem CalendarEvent.id hA)
          · intro _ h2
            exact he (h2 ▸ List.mem_map_of_mem CalendarEvent.id hB)
        rw [hstep, countP_id_q (fun f => overlapTest a f) hrest hb', htail]
        simp
      · -- b is the head event
        have hx : (b.id == a.id) = false :=
          beq_eq_false_iff_ne.mpr (fun h => hne (h.symm))
        have hstep : rest.countP
              (fun f => mentionsPair a.id b.id (mkConflict b f) && overlapTest b f)
            = rest.countP (fun f => (f.id == a.id) && overlapTest b f) := by
          refine countP_ext ?_
          intro f _
          simp [mentionsPair, mkConflict, hx]
        have htail : (scanPairs rest).countP (mentionsPair a.id b.id) = 0 := by
          refine List.countP_eq_zero.mpr ?_
          intro c hc
          obtain ⟨hA, hB, _, _⟩ := scanPairs_shape hc
          simp only [mentionsPair, Bool.or_eq_true, Bool.and_eq_true, beq_iff_eq,
            not_or, not_and]
          constructor
          · intro _ h2
            exact he (h2 ▸ List.mem_map_of_mem CalendarEvent.id hB)
          · intro h1 _
            exact he (h1 ▸ List.mem_map_of_mem CalendarEvent.id hA)
        rw [hstep, countP_id_q (fun f => overlapTest b f) hrest ha', htail,
          overlapTest_comm b a]
        simp
      · -- neither a nor b is the head event
        have hxa : (e.id == a.id) = false := by
          refine beq_eq_false_iff_ne.mpr ?_
          intro hcontra
          exact he (hcontra ▸ List.mem_map_of_mem CalendarEvent.id ha')
        have hxb : (e.id == b.id) = false := by
          refine beq_eq_false_iff_ne.mpr ?_
          intro hcontra
          exact he (hcontra ▸ List.mem_map_of_mem CalendarEvent.id hb')
        have hhead : rest.countP
              (fun f => mentionsPair a.id b.id (mkConflict e f) && overlapTest e f)
            = 0 := by
          refine List.countP_eq_zero.mpr ?_
          intro f _
          simp [mentionsPair, mkConflict, hxa, hxb]
        rw [hhead, ih hrest ha' hb']
        simp

lemma findGroup_groupInsert (u : String) (e : CalendarEvent)
    (acc : List (String × List CalendarEvent)) :
    findGroup u (groupInsert e acc) =
      if e.unitId = u then findGroup u acc ++ [e] else findGroup u acc := by
  induction acc with
  | nil =>
      by_cases h : e.unitId = u
      · simp [groupInsert, findGroup, List.find?_cons_of_pos, h]
      · simp [groupInsert, findGroup, List.find?_cons_of_neg, h]
  | cons wg rest ih =>
      obtain ⟨w, g⟩ := wg
      rw [groupInsert]
      by_cases hw : w = e.unitId
      · rw [if_pos hw]
        by_cases hu : w = u
        · have heu : e.unitId = u := hw ▸ hu
          simp [findGroup, List.find?_cons_of_pos, hu, heu]
        · have heu : ¬ e.unitId = u := fun h => hu (hw ▸ h)
          simp [findGroup, List.find?_cons_of_neg, hu, heu,
            show (w == u) = false from beq_eq_false_iff_ne.mpr hu]
      · rw [if_neg hw]
        by_cases hu : w = u
        · subst hu
          have hhead : ∀ X : List (String × List CalendarEvent),
              findGroup w ((w, g) :: X) = g := by
            intro X
            simp [findGroup, List.find?_cons_of_pos]
          rw [hhead (groupInsert e rest), hhead rest,
            if_neg (fun h => hw h.symm)]
        · have hbu : (w == u) = false := beq_eq_false_iff_ne.mpr hu
          have hstep : ∀ l : List (String × List CalendarEvent),
              findGroup u ((w, g) :: l) = findGroup u l := by
            intro l
            simp [findGroup, List.find?_cons, hbu]
          rw [hstep, hstep, ih]

lemma findGroup_foldl (evs : List CalendarEvent) :
    ∀ (acc : List (String × List CalendarEvent)) (u : String),
      findGroup u (evs.foldl (fun acc e => groupInsert e acc) acc) =
        findGroup u acc ++ evs.filter (fun x => x.unitId == u) := by
  induction evs with
  | nil => intro acc u; simp
  | cons e rest ih =>
      intro acc u
      rw [List.foldl_cons, ih, findGroup_groupInsert, List.filter_cons]
      by_cases h : e.unitId = u
      · rw [if_pos h, if_pos (by simpa using h)]
        simp
      · rw [if_neg h, if_neg (by simpa using h)]

lemma findGroup_groupByUnit (evs : List CalendarEvent) (u : String) :
    findGroup u (groupByUnit evs) = evs.filter (fun x => x.unitId == u) := by
  have h := findGroup_foldl evs [] u
  simpa [groupByUnit, findGroup] using h

lemma keys_groupInsert (e : CalendarEvent)
    (acc : List (String × List CalendarEvent)) :
    (groupInsert e acc).map Prod.fst =
      if e.unitId ∈ acc.map Prod.fst then acc.map Prod.fst
      else acc.map Prod.fst ++ [e.unitId] := by
  induction acc with
  | nil => simp [groupInsert]
  | cons wg rest ih =>
      obtain ⟨w, g⟩ := wg
      rw [groupInsert]
      by_cases hw : w = e.unitId
      · subst hw
        simp
      · rw [if_neg hw, List.map_cons, ih, List.map_cons]
        by_cases hm : e.unitId ∈ rest.map Prod.fst
        · rw [if_pos hm, if_pos (List.mem_cons_of_mem _ hm)]
        · rw [if_neg hm, if_neg ?_]
          · simp
          · intro h
            rcases List.mem_cons.mp h with h | h
            · exact hw h.symm
            · exact hm h

lemma keys_nodup_foldl (evs : List CalendarEvent) :
    ∀ (acc : List (String × List CalendarEvent)),
      (acc.map Prod.fst).Nodup →
      ((evs.foldl (fun acc e => groupInsert e acc) acc).map Prod.fst).Nodup := by
  induction evs with
  | nil => intro acc h; simpa using h
  | cons e rest ih =>
      intro acc h
      rw [List.foldl_cons]
      refine ih _ ?_
      rw [keys_groupInsert]
      by_cases hm : e.unitId ∈ acc.map Prod.fst
      · rwa [if_pos hm]
      · rw [if_neg hm]
        refine List.Nodup.append h (List.nodup_singleton _) ?_
        intro y hy hmem
        rw [List.mem_singleton] at hmem
        exact hm (hmem ▸ hy)

lemma keys_nodup (evs : List CalendarEvent) :
    ((groupByUnit evs).map Prod.fst).Nodup :=
  keys_nodup_foldl evs [] (by simp)

lemma mem_keys_foldl (evs : List CalendarEvent) :
    ∀ (acc : List (String × List CalendarEvent)) (u : String),
      (u ∈ (evs.foldl (fun acc e => groupInsert e acc) acc).map Prod.fst ↔
        u ∈ acc.map Prod.fst ∨ ∃ e ∈ evs, e.unitId = u) := by
  induction evs with
  | nil => intro acc u; simp
  | cons e rest ih =>
      intro acc u
      rw [List.foldl_cons, ih]
      have hgi : u ∈ (groupInsert e acc).map Prod.fst ↔
          u ∈ acc.map Prod.fst ∨ u = e.unitId := by
        rw [keys_groupInsert]
        by_cases hm : e.unitId ∈ acc.map Prod.fst
        · rw [if_pos hm]
          constructor
          · exact Or.inl
          · rintro (h | rfl)
            · exact h
            · exact hm
        · rw [if_neg hm]
          simp
      rw [hgi]
      simp only [List.mem_cons]
      constructor
      · rintro ((h | rfl) | ⟨x, hx, rfl⟩)
        · exact Or.inl h
        · exact Or.inr ⟨e, Or.inl rfl, rfl⟩
        · exact Or.inr ⟨x, Or.inr hx, rfl⟩
      · rintro (h | ⟨x, (rfl | hx), rfl⟩)
        · exact Or.inl (Or.inl h)
        · exact Or.inl (Or.inr rfl)
        · exact Or.inr ⟨x, hx, rfl⟩

lemma mem_keys_groupByUnit (evs : List CalendarEvent) (u : String) :
    u ∈ (groupByUnit evs).map Prod.fst ↔ ∃ e ∈ evs, e.unitId = u := by
  rw [groupByUnit, mem_keys_foldl]
  simp

lemma findGroup_of_mem {l : List (String × List CalendarEvent)}
    (hk : (l.map Prod.fst).Nodup) {u : String} {g : List CalendarEvent}
    (h : (u, g) ∈ l) : findGroup u l = g := by
  induction l with
  | nil => cases h
  | cons wg rest ih =>
      obtain ⟨w, g'⟩ := wg
      rw [List.map_cons, List.nodup_cons] at hk
      obtain ⟨hw, hrest⟩ := hk
      rcases List.mem_cons.mp h with heq | hmem
      · injection heq with h1 h2
        subst h1
        subst h2
        simp [findGroup, List.find?_cons_of_pos]
      · have hne : w ≠ u := by
          intro hcontra
          apply hw
          rw [hcontra]
          exact List.mem_map.mpr ⟨(u, g), hmem, rfl⟩
        have hbu : (w == u) = false := beq_eq_false_iff_ne.mpr hne
        have : findGroup u ((w, g') :: rest) = findGroup u rest := by
          simp [findGroup, List.find?_cons, hbu]
        rw [this]
        exact ih hrest hmem

lemma mem_of_mem_keys {l : List (String × List CalendarEvent)} {u : String}
    (h : u ∈ l.map Prod.fst) : (u, findGroup u l) ∈ l := by
  induction l with
  | nil => cases h
  | cons wg rest ih =>
      obtain ⟨w, g⟩ := wg
      by_cases hw : w = u
      · subst hw
        have hhead : findGroup w ((w, g) :: rest) = g := by
          simp [findGroup, List.find?_cons_of_pos]
        rw [hhead]
        exact List.mem_cons_self _ _
      · have hbu : (w == u) = false := beq_eq_false_iff_ne.mpr hw
        have hstep : findGroup u ((w, g) :: rest) = findGroup u rest := by
          simp [findGroup, List.find?_cons, hbu]
        rw [hstep]
        have hr : u ∈ rest.map Prod.fst := by
          rcases List.mem_map.mp h with ⟨x, hx, rfl⟩
          rcases List.mem_cons.mp hx with rfl | hx'
          · exact absurd rfl hw
          · exact List.mem_map_of_mem Prod.fst hx'
        exact List.mem_cons_of_mem _ (ih hr)

lemma group_eq_filter {evs : List CalendarEvent} {u : String}
    {g : List CalendarEvent} (h : (u, g) ∈ groupByUnit evs) :
    g = evs.filter (fun x => x.unitId == u) := by
  have h1 := findGroup_of_mem (keys_nodup evs) h
  rw [← h1, findGroup_groupByUnit]

lemma group_mem_self {evs : List CalendarEvent} {a : CalendarEvent}
    (ha : a ∈ evs) :
    (a.unitId, evs.filter (fun x => x.unitId == a.unitId)) ∈ groupByUnit evs := by
  have hk : a.unitId ∈ (groupByUnit evs).map Prod.fst :=
    (mem_keys_groupByUnit evs a.unitId).mpr ⟨a, ha, rfl⟩
  have h := mem_of_mem_keys hk
  rwa [findGroup_groupByUnit] at h

lemma countP_flatMap_zero {β : Type} {p : ConflictInfo → Bool}
    {f : β → List ConflictInfo} {l : List β}
    (h : ∀ x ∈ l, (f x).countP p = 0) : (l.flatMap f).countP p = 0 := by
  induction l with
  | nil => rfl
  | cons e rest ih =>
      rw [List.flatMap_cons, List.countP_append,
        h e (List.mem_cons_self e rest), ih (fun x hx => h x (List.mem_cons_of_mem e hx))]

lemma countP_flatMap_single {p : ConflictInfo → Bool}
    {f : String × List CalendarEvent → List ConflictInfo}
    {l : List (String × List CalendarEvent)}
    (hk : (l.map Prod.fst).Nodup) {U : String} {gU : List CalendarEvent}
    (hm : (U, gU) ∈ l) (hz : ∀ q ∈ l, q.1 ≠ U → (f q).countP p = 0) :
    (l.flatMap f).countP p = (f (U, gU)).countP p := by
  induction l with
  | nil => cases hm
  | cons q rest ih =>
      rw [List.map_cons, List.nodup_cons] at hk
      obtain ⟨hq1, hrest⟩ := hk
      rw [List.flatMap_cons, List.countP_append]
      rcases List.mem_cons.mp hm with heq | hmem
      · subst heq
        have hz0 : ∀ x ∈ rest, (f x).countP p = 0 := by
          intro x hx
          refine hz x (List.mem_cons_of_mem _ hx) ?_
          intro hcontra
          apply hq1
          rw [← hcontra]
          exact List.mem_map.mpr ⟨x, hx, rfl⟩
        rw [countP_flatMap_zero hz0]
        simp
      · have hqU : q.1 ≠ U := by
          intro hcontra
          apply hq1
          rw [hcontra]
          exact List.mem_map.mpr ⟨(U, gU), hmem, rfl⟩
        rw [hz q (List.mem_cons_self q rest) hqU,
          ih hrest hmem (fun x hx hxu => hz x (List.mem_cons_of_mem q hx) hxu)]
        simp

/-- Claim C1: for every input list of calendar events with distinct ids,
`detectConflicts` emits exactly one ConflictPair for each unordered pair of
distinct events on the same unit whose half-open intervals overlap
(`startA < endB` and `startB < endA`) — and zero pairs for a pair on
different units or a pair that merely shares an endpoint — and every
emitted pair carries the intersection
`[max(startA, startB), min(endA, endB))` of two genuinely overlapping
events on one unit. -/
theorem detectConflicts_exact_pairs (evs : List CalendarEvent)
    (a b : CalendarEvent) (hids : (evs.map CalendarEvent.id).Nodup)
    (ha : a ∈ evs) (hb : b ∈ evs) (hne : a.id ≠ b.id) :
    (detectConflicts evs).countP (mentionsPair a.id b.id) =
      (if a.unitId = b.unitId ∧ overlapTest a b = true then 1 else 0) ∧
    ∀ c ∈ detectConflicts evs,
      c.overlapStart = max c.eventA.checkIn c.eventB.checkIn ∧
      c.overlapEnd = min c.eventA.checkOut c.eventB.checkOut ∧
      c.eventA.unitId = c.eventB.unitId ∧
      overlapTest c.eventA c.eventB = true := by
  have hmemg : ∀ (u : String) (g : List CalendarEvent),
      (u, g) ∈ groupByUnit evs → ∀ x ∈ sortByCheckIn g, x ∈ evs ∧ x.unitId = u := by
    intro u g hq x hx
    have hxg : x ∈ g := ((sortByCheckIn_perm g).mem_iff).mp hx
    rw [group_eq_filter hq] at hxg
    refine ⟨List.mem_of_mem_filter hxg, ?_⟩
    have := List.of_mem_filter hxg
    simpa using this
  constructor
  · by_cases hu : a.unitId = b.unitId
    · have hmem : (a.unitId, evs.filter (fun x => x.unitId == a.unitId))
          ∈ groupByUnit evs := group_mem_self ha
      have hz : ∀ q ∈ groupByUnit evs, q.1 ≠ a.unitId →
          (scanPairs (sortByCheckIn q.2)).countP (mentionsPair a.id b.id) = 0 := by
        rintro ⟨u, g⟩ hq hqu
        refine List.countP_eq_zero.mpr ?_
        intro c hc
        obtain ⟨hA, hB, _, _⟩ := scanPairs_shape hc
        simp only [mentionsPair, Bool.or_eq_true, Bool.and_eq_true, beq_iff_eq,
          not_or, not_and]
        constructor
        · intro h1 _
          obtain ⟨hAe, hAu⟩ := hmemg u g hq _ hA
          have hEq : c.eventA = a := mem_id_unique hids ha hAe h1
          have h3 : u = a.unitId := by rw [← hEq]; exact hAu.symm
          exact hqu h3
        · intro _ h2
          obtain ⟨hBe, hBu⟩ := hmemg u g hq _ hB
          have hEq : c.eventB = a := mem_id_unique hids ha hBe h2
          have h3 : u = a.unitId := by rw [← hEq]; exact hBu.symm
          exact hqu h3
      rw [detectConflicts, countP_flatMap_single (keys_nodup evs) hmem hz]
      have hperm := sortByCheckIn_perm (evs.filter (fun x => x.unitId == a.unitId))
      have hsub : ((evs.filter (fun x => x.unitId == a.unitId)).map
          CalendarEvent.id).Nodup :=
        List.Nodup.sublist ((List.filter_sublist evs).map CalendarEvent.id) hids
      have hsn : ((sortByCheckIn (evs.filter (fun x => x.unitId == a.unitId))).map
          CalendarEvent.id).Nodup := ((hperm.map CalendarEvent.id).nodup_iff).mpr hsub
      have haU : a ∈ sortByCheckIn (evs.filter (fun x => x.unitId == a.unitId)) :=
        hperm.mem_iff.mpr (List.mem_filter.mpr ⟨ha, by simp⟩)
      have hbU : b ∈ sortByCheckIn (evs.filter (fun x => x.unitId == a.unitId)) :=
        hperm.mem_iff.mpr (List.mem_filter.mpr ⟨hb, by simp [hu.symm]⟩)
      rw [scanPairs_countP hsn haU hbU hne]
      simp [hu]
    · have hz : ∀ q ∈ groupByUnit evs,
          (scanPairs (sortByCheckIn q.2)).countP (mentionsPair a.id b.id) = 0 := by
        rintro ⟨u, g⟩ hq
        refine List.countP_eq_zero.mpr ?_
        intro c hc
        obtain ⟨hA, hB, _, _⟩ := scanPairs_shape hc
        simp only [mentionsPair, Bool.or_eq_true, Bool.and_eq_true, beq_iff_eq,
          not_or, not_and]
        constructor
        · intro h1 h2
          obtain ⟨hAe, hAu⟩ := hmemg u g hq _ hA
          obtain ⟨hBe, hBu⟩ := hmemg u g hq _ hB
          have hEa : c.eventA = a := mem_id_unique hids ha hAe h1
          have hEb : c.eventB = b := mem_id_unique hids hb hBe h2
          have h3 : a.unitId = u := by rw [← hEa]; exact hAu
          have h4 : b.unitId = u := by rw [← hEb]; exact hBu
          exact hu (h3.trans h4.symm)
        · intro h1 h2
          obtain ⟨hAe, hAu⟩ := hmemg u g hq _ hA
          obtain ⟨hBe, hBu⟩ := hmemg u g hq _ hB
          have hEa : c.eventA = b := mem_id_unique hids hb hAe h1
          have hEb : c.eventB = a := mem_id_unique hids ha hBe h2
          have h3 : b.unitId = u := by rw [← hEa]; exact hAu
          have h4 : a.unitId = u := by rw [← hEb]; exact hBu
          exact hu (h4.trans h3.symm)
      rw [detectConflicts, countP_flatMap_zero
        (fun q hq => hz q hq)]
      simp [hu]
  · intro c hc
    rw [detectConflicts, List.mem_flatMap] at hc
    obtain ⟨⟨u, g⟩, hq, hc'⟩ := hc
    obtain ⟨hA, hB, hov, hshape⟩ := scanPairs_shape hc'
    obtain ⟨_, hAu⟩ := hmemg u g hq _ hA
    obtain ⟨_, hBu⟩ := hmemg u g hq _ hB
    refine ⟨?_, ?_, ?_, hov⟩
    · rw [hshape]
      simp [mkConflict]
    · rw [hshape]
      simp [mkConflict]
    · rw [hAu, hBu]

/-- Witness for C1 at the spec's own example: A = [1, 3) and B = [2, 4) on
one unit yield exactly one pair with intersection [2, 3). -/
theorem detectConflicts_exact_pairs_witness :
    ((List.map CalendarEvent.id [evA, evB]).Nodup ∧ evA ∈ [evA, evB] ∧
      evB ∈ [evA, evB] ∧ evA.id ≠ evB.id) ∧
    ((detectConflicts [evA, evB]).countP (mentionsPair evA.id evB.id) =
      (if evA.unitId = evB.unitId ∧ overlapTest evA evB = true then 1 else 0) ∧
    ∀ c ∈ detectConflicts [evA, evB],
      c.overlapStart = max c.eventA.checkIn c.eventB.checkIn ∧
      c.overlapEnd = min c.eventA.checkOut c.eventB.checkOut ∧
      c.eventA.unitId = c.eventB.unitId ∧
      overlapTest c.eventA c.eventB = true) :=
  ⟨⟨by decide, by decide, by decide, by decide⟩,
    detectConflicts_exact_pairs [evA, evB] evA evB (by decide) (by decide)
      (by decide) (by decide)⟩

lemma processEvent_eq_some {channel unitId : String} {acc : RunAcc}
    {e : ICalEvent} {x : Reservation}
    (hf : findReservation acc.db channel (channel ++ "-" ++ e.uid) = some x) :
    processEvent channel unitId acc e =
      if x.checkIn ≠ e.dtstart ∨ x.checkOut ≠ e.dtend then
        { acc with
          updated := acc.updated + 1,
          db := updateReservationRow acc.db x.id e.dtstart e.dtend
            (summaryOrGuest e.summary) }
      else acc := by
  unfold processEvent
  rw [hf]

lemma processEvent_eq_none {channel unitId : String} {acc : RunAcc}
    {e : ICalEvent}
    (hf : findReservation acc.db channel (channel ++ "-" ++ e.uid) = none) :
    processEvent channel unitId acc e =
      { acc with
        created := acc.created + 1,
        db := createReservationRow acc.db unitId channel
          (channel ++ "-" ++ e.uid)
          (summaryOrGuest e.summary) e.dtstart e.dtend } := by
  unfold processEvent
  rw [hf]

lemma processEvent_matched_noop {channel unitId : String} {acc : RunAcc}
    {e : ICalEvent} (h : matchesStored acc.db channel e = true) :
    processEvent channel unitId acc e = acc := by
  unfold matchesStored at h
  cases hf : findReservation acc.db channel (channel ++ "-" ++ e.uid) with
  | none => rw [hf] at h; simp [Option.any] at h
  | some r =>
      rw [hf] at h
      simp only [Option.any, Bool.and_eq_true, beq_iff_eq] at h
      obtain ⟨⟨hci, hco⟩, _⟩ := h
      rw [processEvent_eq_some hf, if_neg]
      push_neg
      exact ⟨hci, hco⟩

lemma foldl_processEvent_noop {channel unitId : String}
    {events : List ICalEvent} {acc : RunAcc}
    (h : ∀ e ∈ events, matchesStored acc.db channel e = true) :
    events.foldl (processEvent channel unitId) acc = acc := by
  induction events with
  | nil => rfl
  | cons e rest ih =>
      rw [List.foldl_cons, processEvent_matched_noop (h e (List.mem_cons_self e rest))]
      exact ih (fun x hx => h x (List.mem_cons_of_mem e hx))

lemma syncCalendar_noop (m : ChannelMapping) (u : String) (fetch : FetchResult)
    (freshUid : Nat → String) (now : Int) (db : DB)
    (h : ∀ e ∈ eventsOf freshUid fetch, matchesStored db m.channel e = true) :
    (syncCalendar m u fetch freshUid now db).1.eventsCreated = 0 ∧
    (syncCalendar m u fetch freshUid now db).1.eventsUpdated = 0 ∧
    (syncCalendar m u fetch freshUid now db).2.reservations = db.reservations := by
  cases hurl : m.iCalUrl with
  | none => simp [syncCalendar, hurl]
  | some url =>
      cases fetch with
      | ok doc =>
          have hfold : (parseICalData freshUid doc).foldl
              (processEvent m.channel u) { created := 0, updated := 0, db := db }
              = { created := 0, updated := 0, db := db } :=
            foldl_processEvent_noop (by
              intro e he
              exact h e (by simpa [eventsOf] using he))
          simp [syncCalendar, hurl, hfold, appendSyncLog]
      | noResponse msg => simp [syncCalendar, hurl, appendSyncLog]
      | httpError status => simp [syncCalendar, hurl, appendSyncLog]

lemma updateRow_fields (rid : String) (ci co : Int) (gn : String)
    (r : Reservation) :
    ((if r.id = rid then
        { r with checkIn := ci, checkOut := co, guestName := gn }
      else r) : Reservation).channel = r.channel ∧
    ((if r.id = rid then
        { r with checkIn := ci, checkOut := co, guestName := gn }
      else r) : Reservation).externalId = r.externalId ∧
    ((if r.id = rid then
        { r with checkIn := ci, checkOut := co, guestName := gn }
      else r) : Reservation).id = r.id := by
  split <;> simp

lemma uniqueKeys_updateReservationRow {db : DB} (rid : String) (ci co : Int)
    (gn : String) (h : UniqueExternalIds db) :
    UniqueExternalIds (updateReservationRow db rid ci co gn) := by
  unfold UniqueExternalIds at h ⊢
  unfold updateReservationRow
  rw [List.pairwise_map]
  refine h.imp ?_
  intro r1 r2 hr
  obtain ⟨hc1, he1, _⟩ := updateRow_fields rid ci co gn r1
  obtain ⟨hc2, he2, _⟩ := updateRow_fields rid ci co gn r2
  unfold sameExternalKey at hr ⊢
  rw [hc1, hc2, he1, he2]
  exact hr

lemma processEvent_preserves_unique {channel unitId : String} {acc : RunAcc}
    (e : ICalEvent) (h : UniqueExternalIds acc.db) :
    UniqueExternalIds (processEvent channel unitId acc e).db := by
  cases hf : findReservation acc.db channel (channel ++ "-" ++ e.uid) with
  | some r =>
      rw [processEvent_eq_some hf]
      by_cases hcond : r.checkIn ≠ e.dtstart ∨ r.checkOut ≠ e.dtend
      · rw [if_pos hcond]
        exact uniqueKeys_updateReservationRow r.id e.dtstart e.dtend
          (summaryOrGuest e.summary) h
      · rw [if_neg hcond]
        exact h
  | none =>
      rw [processEvent_eq_none hf]
      have hnone := List.find?_eq_none.mp hf
      unfold UniqueExternalIds at h ⊢
      unfold createReservationRow
      rw [List.pairwise_append]
      refine ⟨h, List.pairwise_singleton _ _, ?_⟩
      intro r1 hr1 r2 hr2
      rw [List.mem_singleton] at hr2
      subst hr2
      have hx := hnone r1 hr1
      rw [Bool.not_eq_true] at hx
      unfold sameExternalKey
      simp only [Bool.and_eq_false_iff] at hx ⊢
      left
      exact hx

lemma foldl_processEvent_unique (channel unitId : String)
    (events : List ICalEvent) (acc : RunAcc) (h : UniqueExternalIds acc.db) :
    UniqueExternalIds ((events.foldl (processEvent channel unitId) acc).db) := by
  induction events generalizing acc with
  | nil => exact h
  | cons e rest ih =>
      rw [List.foldl_cons]
      exact ih _ (processEvent_preserves_unique e h)

lemma processEvent_key_trace {channel unitId : String} {acc : RunAcc}
    (e : ICalEvent) {r : Reservation}
    (hr : r ∈ (processEvent channel unitId acc e).db.reservations) :
    (∃ r0 ∈ acc.db.reservations,
      r.id = r0.id ∧ r.channel = r0.channel ∧ r.externalId = r0.externalId) ∨
    (r.channel = channel ∧ r.externalId = some (channel ++ "-" ++ e.uid)) := by
  cases hf : findReservation acc.db channel (channel ++ "-" ++ e.uid) with
  | some x =>
      rw [processEvent_eq_some hf] at hr
      by_cases hcond : x.checkIn ≠ e.dtstart ∨ x.checkOut ≠ e.dtend
      · rw [if_pos hcond] at hr
        unfold updateReservationRow at hr
        simp only [List.mem_map] at hr
        obtain ⟨r0, hr0, hEq⟩ := hr
        left
        refine ⟨r0, hr0, ?_⟩
        rw [← hEq]
        obtain ⟨h1, h2, h3⟩ := updateRow_fields x.id e.dtstart e.dtend
          (summaryOrGuest e.summary) r0
        exact ⟨h3, h1, h2⟩
      · rw [if_neg hcond] at hr
        exact Or.inl ⟨r, hr, rfl, rfl, rfl⟩
  | none =>
      rw [processEvent_eq_none hf] at hr
      unfold createReservationRow at hr
      simp only [List.mem_append, List.mem_singleton] at hr
      rcases hr with hr | hr
      · exact Or.inl ⟨r, hr, rfl, rfl, rfl⟩
      · right
        rw [hr]
        exact ⟨rfl, rfl⟩

lemma foldl_processEvent_key_trace {channel unitId : String}
    (events : List ICalEvent) (acc : RunAcc) {r : Reservation}
    (hr : r ∈ ((events.foldl (processEvent channel unitId) acc).db.reservations)) :
    (∃ r0 ∈ acc.db.reservations,
      r.id = r0.id ∧ r.channel = r0.channel ∧ r.externalId = r0.externalId) ∨
    keyFromFeed channel events r := by
  induction events generalizing acc with
  | nil => exact Or.inl ⟨r, hr, rfl, rfl, rfl⟩
  | cons e rest ih =>
      rw [List.foldl_cons] at hr
      rcases ih _ hr with ⟨r0, hr0, hid, hch, hex⟩ | hkey
      · rcases processEvent_key_trace e hr0 with ⟨r1, hr1, hid1, hch1, hex1⟩ | hk
        · exact Or.inl ⟨r1, hr1, hid.trans hid1, hch.trans hch1, hex.trans hex1⟩
        · right
          exact ⟨e, List.mem_cons_self e rest, hch.trans hk.1, hex.trans hk.2⟩
      · right
        obtain ⟨e', he', hk⟩ := hkey
        exact ⟨e', List.mem_cons_of_mem e he', hk⟩

/-! ## Reconciler and scheduler claims -/

/-- Claim C2: reconciliation is idempotent — running `syncCalendar` a
second time on the same feed content, when every fetched event is
bit-identical to the stored reservation its dedup key maps to after the
first run, performs no reservation writes and returns
`eventsCreated = 0` and `eventsUpdated = 0` on the second run. -/
theorem syncCalendar_second_run_idempotent (m : ChannelMapping) (u : String)
    (fetch : FetchResult) (freshUid : Nat → String) (now1 now2 : Int) (db0 : DB)
    (h : ∀ e ∈ eventsOf freshUid fetch,
      matchesStored (syncCalendar m u fetch freshUid now1 db0).2 m.channel e
        = true) :
    (syncCalendar m u fetch freshUid now2
        (syncCalendar m u fetch freshUid now1 db0).2).1.eventsCreated = 0 ∧
    (syncCalendar m u fetch freshUid now2
        (syncCalendar m u fetch freshUid now1 db0).2).1.eventsUpdated = 0 ∧
    (syncCalendar m u fetch freshUid now2
        (syncCalendar m u fetch freshUid now1 db0).2).2.reservations =
      (syncCalendar m u fetch freshUid now1 db0).2.reservations :=
  syncCalendar_noop m u fetch freshUid now2 _ h

/-- Witness for C2: a concrete feed of one event reconciled twice from an
empty store; the second run creates and updates nothing. -/
theorem syncCalendar_second_run_idempotent_witness :
    (∀ e ∈ eventsOf sampleFresh (.ok (.parsed [sampleVEvent])),
      matchesStored
        (syncCalendar sampleMapping "u1" (.ok (.parsed [sampleVEvent]))
          sampleFresh 100 emptyDB).2 sampleMapping.channel e = true) ∧
    (syncCalendar sampleMapping "u1" (.ok (.parsed [sampleVEvent])) sampleFresh 200
        (syncCalendar sampleMapping "u1" (.ok (.parsed [sampleVEvent]))
          sampleFresh 100 emptyDB).2).1.eventsCreated = 0 ∧
    (syncCalendar sampleMapping "u1" (.ok (.parsed [sampleVEvent])) sampleFresh 200
        (syncCalendar sampleMapping "u1" (.ok (.parsed [sampleVEvent]))
          sampleFresh 100 emptyDB).2).1.eventsUpdated = 0 ∧
    (syncCalendar sampleMapping "u1" (.ok (.parsed [sampleVEvent])) sampleFresh 200
        (syncCalendar sampleMapping "u1" (.ok (.parsed [sampleVEvent]))
          sampleFresh 100 emptyDB).2).2.reservations =
      (syncCalendar sampleMapping "u1" (.ok (.parsed [sampleVEvent]))
        sampleFresh 100 emptyDB).2.reservations :=
  ⟨by decide,
    syncCalendar_second_run_idempotent sampleMapping "u1"
      (.ok (.parsed [sampleVEvent])) sampleFresh 100 200 emptyDB (by decide)⟩

/-- Claim C3: the reconciler forms the external id as `<channel>-<uid>` and
looks an existing reservation up by `(channel, externalId)` before every
create; hence a run preserves the invariant that no two reservations share
a channel and a present external id (so any number of runs preserves it),
and every reservation whose id is new to this run carries a
`<channel>-<uid>` external id for some fetched event. -/
theorem syncCalendar_dedup_invariant (m : ChannelMapping) (u : String)
    (fetch : FetchResult) (freshUid : Nat → String) (now : Int) (db : DB)
    (h : UniqueExternalIds db) :
    UniqueExternalIds (syncCalendar m u fetch freshUid now db).2 ∧
    ∀ r ∈ (syncCalendar m u fetch freshUid now db).2.reservations,
      (∀ r0 ∈ db.reservations, r.id ≠ r0.id) →
      keyFromFeed m.channel (eventsOf freshUid fetch) r := by
  cases hurl : m.iCalUrl with
  | none =>
      constructor
      · simpa [syncCalendar, hurl] using h
      · intro r hr hnew
        exfalso
        simp only [syncCalendar, hurl] at hr
        exact (hnew r hr) rfl
  | some url =>
      cases fetch with
      | ok doc =>
          constructor
          · have hq := foldl_processEvent_unique m.channel u
              (parseICalData freshUid doc)
              { created := 0, updated := 0, db := db } h
            simpa [syncCalendar, hurl, UniqueExternalIds, appendSyncLog] using hq
          · intro r hr hnew
            have hr' : r ∈ ((parseICalData freshUid doc).foldl
                (processEvent m.channel u)
                { created := 0, updated := 0, db := db }).db.reservations := by
              simpa [syncCalendar, hurl, appendSyncLog] using hr
            rcases foldl_processEvent_key_trace _ _ hr' with
              ⟨r0, hr0, hid, _, _⟩ | hkey
            · exact absurd hid (hnew r0 hr0)
            · simpa [eventsOf] using hkey
      | noResponse msg =>
          constructor
          · simpa [syncCalendar, hurl, UniqueExternalIds, appendSyncLog] using h
          · intro r hr hnew
            exfalso
            simp only [syncCalendar, hurl, appendSyncLog] at hr
            exact (hnew r hr) rfl
      | httpError status =>
          constructor
          · simpa [syncCalendar, hurl, UniqueExternalIds, appendSyncLog] using h
          · intro r hr hnew
            exfalso
            simp only [syncCalendar, hurl, appendSyncLog] at hr
            exact (hnew r hr) rfl

/-- Witness for C3: a run over an empty store (which trivially satisfies
the invariant) keeps it and stamps the `airbnb-ev1` key on the created
reservation. -/
theorem syncCalendar_dedup_invariant_witness :
    UniqueExternalIds
      (syncCalendar sampleMapping "u1" (.ok (.parsed [sampleVEvent]))
        sampleFresh 100 emptyDB).2 ∧
    ∀ r ∈ (syncCalendar sampleMapping "u1" (.ok (.parsed [sampleVEvent]))
        sampleFresh 100 emptyDB).2.reservations,
      (∀ r0 ∈ emptyDB.reservations, r.id ≠ r0.id) →
      keyFromFeed sampleMapping.channel
        (eventsOf sampleFresh (.ok (.parsed [sampleVEvent]))) r :=
  syncCalendar_dedup_invariant sampleMapping "u1" (.ok (.parsed [sampleVEvent]))
    sampleFresh 100 emptyDB List.Pairwise.nil

/-- Claim C9: the scheduler is single-flight and always returns to Idle —
a `runSync` call made in the Running state performs no fetches and no
writes and returns the previous run's cached result list together with the
unchanged state; and whenever a batch actually runs (state Idle), the
resulting state is Idle again (`isRunning = false`), regardless of how
many connections failed.  Both facts are captured by
`(runSync …).2.isRunning = s.isRunning`. -/
theorem runSync_single_flight (fetches : String → FetchResult)
    (freshUid : Nat → String) (now : Int) (s : SchedulerState) :
    (s.isRunning = true → runSync fetches freshUid now s = (s.lastResults, s)) ∧
    (runSync fetches freshUid now s).2.isRunning = s.isRunning := by
  constructor
  · intro h
    simp [runSync, h]
  · by_cases h : s.isRunning = true
    · simp [runSync, h]
    · rw [Bool.not_eq_true] at h
      simp [runSync, h]

/-- Witness for C9: a trigger against the running state returns the cached
results and the untouched state; a batch from the idle state ends Idle. -/
theorem runSync_single_flight_witness :
    runSync (fun _ => FetchResult.noResponse "down") sampleFresh 77 busyState
      = (busyState.lastResults, busyState) ∧
    (runSync (fun _ => FetchResult.noResponse "down") sampleFresh 77
      idleState).2.isRunning = false :=
  ⟨(runSync_single_flight (fun _ => FetchResult.noResponse "down") sampleFresh 77
      busyState).1 rfl,
    by
      have h := (runSync_single_flight (fun _ => FetchResult.noResponse "down")
        sampleFresh 77 idleState).2
      simpa using h⟩

lemma createReservation_eq_found (userId : String)
    (input : CreateReservationInput) (db : DB) (w : UnitRow)
    (hw : db.units.find? (fun v => v.id == input.unitId && v.ownerId == userId)
      = some w) :
    createReservation userId input db =
      if (db.reservations.filter (reservationConflict input)).length > 0 then
        .error "Dates conflict with existing reservation"
      else
        .ok ({ id := "res-" ++ toString db.nextId, unitId := input.unitId,
               channel := input.channel, externalId := input.externalId,
               guestName := input.guestName, checkIn := input.checkIn,
               checkOut := input.checkOut,
               status := defaultReservationStatus },
             { db with
               reservations := db.reservations ++
                 [{ id := "res-" ++ toString db.nextId, unitId := input.unitId,
                    channel := input.channel, externalId := input.externalId,
                    guestName := input.guestName, checkIn := input.checkIn,
                    checkOut := input.checkOut,
                    status := defaultReservationStatus }],
               nextId := db.nextId + 1 }) := by
  unfold createReservation
  rw [hw]

/-- Claim C10: manual reservation creation refuses double-bookings against
confirmed/pending reservations under half-open overlap semantics, throwing
`Dates conflict with existing reservation` and persisting nothing, while
availability blocks are never consulted: with no conflicting reservation
the create succeeds whatever blocks exist, and the whole outcome is
invariant under replacing the block table. -/
theorem createReservation_conflict_policy (userId : String)
    (input : CreateReservationInput) (db : DB)
    (hunit : (db.units.find?
      (fun v => v.id == input.unitId && v.ownerId == userId)).isSome) :
    ((∃ r ∈ db.reservations, reservationConflict input r = true) →
      createReservation userId input db
        = .error "Dates conflict with existing reservation") ∧
    ((∀ r ∈ db.reservations, reservationConflict input r = false) →
      createReservation userId input db =
        .ok ({ id := "res-" ++ toString db.nextId, unitId := input.unitId,
               channel := input.channel, externalId := input.externalId,
               guestName := input.guestName, checkIn := input.checkIn,
               checkOut := input.checkOut,
               status := defaultReservationStatus },
             { db with
               reservations := db.reservations ++
                 [{ id := "res-" ++ toString db.nextId, unitId := input.unitId,
                    channel := input.channel, externalId := input.externalId,
                    guestName := input.guestName, checkIn := input.checkIn,
                    checkOut := input.checkOut,
                    status := defaultReservationStatus }],
               nextId := db.nextId + 1 })) ∧
    (∀ bs : List AvailabilityBlock,
      createReservation userId input { db with blocks := bs } =
        Except.map (fun p => (p.1, { p.2 with blocks := bs }))
          (createReservation userId input db)) := by
  obtain ⟨w, hw⟩ := Option.isSome_iff_exists.mp hunit
  refine ⟨?_, ?_, ?_⟩
  · rintro ⟨r, hr, hcr⟩
    rw [createReservation_eq_found userId input db w hw]
    rw [if_pos]
    exact List.length_pos.mpr
      (List.ne_nil_of_mem (List.mem_filter.mpr ⟨hr, hcr⟩))
  · intro hnone
    rw [createReservation_eq_found userId input db w hw]
    have hfil : db.reservations.filter (reservationConflict input) = [] := by
      rw [List.filter_eq_nil_iff]
      intro r hr
      rw [hnone r hr]
      simp
    rw [hfil]
    simp
  · intro bs
    rw [createReservation_eq_found userId input { db with blocks := bs } w hw,
      createReservation_eq_found userId input db w hw]
    dsimp only
    by_cases hc :
        (db.reservations.filter (reservationConflict input)).length > 0
    · rw [if_pos hc, if_pos hc]
      rfl
    · rw [if_neg hc, if_neg hc]
      rfl

lemma canonicalSummary_ne_empty (v : VEvent) : canonicalSummary v ≠ "" := by
  cases hsum : v.summary with
  | none => simp [canonicalSummary, hsum]
  | some t =>
      simp only [canonicalSummary, hsum]
      by_cases h : t = ""
      · rw [if_pos h]
        decide
      · rw [if_neg h]
        exact h

lemma summaryOrGuest_canonicalSummary (v : VEvent) :
    summaryOrGuest (canonicalSummary v) = canonicalSummary v := by
  unfold summaryOrGuest
  rw [if_neg (canonicalSummary_ne_empty v)]

lemma parseICalData_single (freshUid : Nat → String) (v : VEvent) {s en : Int}
    (hs : v.startDate = some s) (he : v.endDate = some en) :
    parseICalData freshUid (.parsed [v]) =
      [{ uid := canonicalUid freshUid 0 v, summary := canonicalSummary v,
         dtstart := s, dtend := en }] := by
  simp [parseICalData, parseVEvents, hs, he]

lemma parseICalData_skip (freshUid : Nat → String) (w : VEvent)
    (h : w.startDate = none ∨ w.endDate = none) :
    parseICalData freshUid (.parsed [w]) = [] := by
  rcases h with h | h
  · cases he : w.endDate <;> simp [parseICalData, parseVEvents, h, he]
  · cases hs : w.startDate <;> simp [parseICalData, parseVEvents, hs, h]

lemma syncCalendar_single_create (m : ChannelMapping) (u url : String)
    (freshUid : Nat → String) (now : Int) (db : DB) (v : VEvent) (s en : Int)
    (hurl : m.iCalUrl = some url) (hs : v.startDate = some s)
    (he : v.endDate = some en)
    (hfind : findReservation db m.channel
      (m.channel ++ "-" ++ canonicalUid freshUid 0 v) = none) :
    syncCalendar m u (.ok (.parsed [v])) freshUid now db =
      ({ success := true, eventsFound := 1, eventsCreated := 1,
         eventsUpdated := 0, added := 1, updated := 0, error := none },
       appendSyncLog
         { db with
           reservations := db.reservations ++
             [{ id := "res-" ++ toString db.nextId, unitId := u,
                channel := m.channel,
                externalId := some (m.channel ++ "-" ++ canonicalUid freshUid 0 v),
                guestName := canonicalSummary v, checkIn := s, checkOut := en,
                status := "confirmed" }],
           nextId := db.nextId + 1 }
         { channelMappingId := m.id, status := "success", eventsFound := 1,
           eventsCreated := 1, eventsUpdated := 0, error := none,
           completedAt := now }) := by
  simp only [syncCalendar, hurl, parseICalData_single freshUid v hs he,
    List.foldl_cons, List.foldl_nil, List.length_singleton]
  rw [processEvent_eq_none hfind]
  simp [createReservationRow, summaryOrGuest_canonicalSummary]

lemma syncCalendar_single_update_changed (m : ChannelMapping) (u url : String)
    (freshUid : Nat → String) (now : Int) (db : DB) (v : VEvent) (s en : Int)
    (r : Reservation) (hurl : m.iCalUrl = some url) (hs : v.startDate = some s)
    (he : v.endDate = some en)
    (hfind : findReservation db m.channel
      (m.channel ++ "-" ++ canonicalUid freshUid 0 v) = some r)
    (hcond : r.checkIn ≠ s ∨ r.checkOut ≠ en) :
    syncCalendar m u (.ok (.parsed [v])) freshUid now db =
      ({ success := true, eventsFound := 1, eventsCreated := 0,
         eventsUpdated := 1, added := 0, updated := 1, error := none },
       appendSyncLog
         (updateReservationRow db r.id s en (canonicalSummary v))
         { channelMappingId := m.id, status := "success", eventsFound := 1,
           eventsCreated := 0, eventsUpdated := 1, error := none,
           completedAt := now }) := by
  simp only [syncCalendar, hurl, parseICalData_single freshUid v hs he,
    List.foldl_cons, List.foldl_nil, List.length_singleton]
  rw [processEvent_eq_some hfind]
  rw [if_pos hcond]
  simp [summaryOrGuest_canonicalSummary]

lemma syncCalendar_single_update_same (m : ChannelMapping) (u url : String)
    (freshUid : Nat → String) (now : Int) (db : DB) (v : VEvent) (s en : Int)
    (r : Reservation) (hurl : m.iCalUrl = some url) (hs : v.startDate = some s)
    (he : v.endDate = some en)
    (hfind : findReservation db m.channel
      (m.channel ++ "-" ++ canonicalUid freshUid 0 v) = some r)
    (hci : r.checkIn = s) (hco : r.checkOut = en) :
    syncCalendar m u (.ok (.parsed [v])) freshUid now db =
      ({ success := true, eventsFound := 1, eventsCreated := 0,
         eventsUpdated := 0, added := 0, updated := 0, error := none },
       appendSyncLog db
         { channelMappingId := m.id, status := "success", eventsFound := 1,
           eventsCreated := 0, eventsUpdated := 0, error := none,
           completedAt := now }) := by
  simp only [syncCalendar, hurl, parseICalData_single freshUid v hs he,
    List.foldl_cons, List.foldl_nil, List.length_singleton]
  rw [processEvent_eq_some hfind]
  rw [if_neg (by simp [hci, hco])]

lemma syncCalendar_noResponse (m : ChannelMapping) (u url msg : String)
    (freshUid : Nat → String) (now : Int) (db : DB)
    (hurl : m.iCalUrl = some url) :
    syncCalendar m u (.noResponse msg) freshUid now db =
      ({ success := false, eventsFound := 0, eventsCreated := 0,
         eventsUpdated := 0, added := 0, updated := 0, error := some msg },
       appendSyncLog db
         { channelMappingId := m.id, status := "failed", eventsFound := 0,
           eventsCreated := 0, eventsUpdated := 0, error := some msg,
           completedAt := now }) := by
  simp [syncCalendar, hurl, fetchErrorMessage]

lemma processMapping_eq_unit (fetches : String → FetchResult)
    (freshUid : Nat → String) (now : Int) (acc : List SyncResult × DB)
    (m : ChannelMapping) (u : String) (hu : m.propertyUnits.head? = some u) :
    processMapping fetches freshUid now acc m =
      (acc.1 ++ [{ channelId := m.id, propertyName := m.propertyName,
                   channel := m.channel,
                   success := (syncCalendar m u (fetches m.id) freshUid now
                     acc.2).1.error.isNone,
                   eventsAdded := (syncCalendar m u (fetches m.id) freshUid now
                     acc.2).1.added,
                   eventsUpdated := (syncCalendar m u (fetches m.id) freshUid now
                     acc.2).1.updated,
                   error := (syncCalendar m u (fetches m.id) freshUid now
                     acc.2).1.error }],
       updateMapping
         (syncCalendar m u (fetches m.id) freshUid now acc.2).2 m.id
         (fun mm =>
           { mm with
             lastSyncAt := some now,
             lastSyncError := (syncCalendar m u (fetches m.id) freshUid now
               acc.2).1.error })) := by
  unfold processMapping
  rw [hu]

/-! ## Claim C4 (corrected).  The scheduler advances `lastSyncAt`
unconditionally after every sync attempt that returns, so a fetch failure
still advances the timestamp (only `lastSyncError` distinguishes it). -/

/-- Counterexample for C4: the mapping starts with `lastSyncAt = none`;
its feed fetch fails with a transport error; after the run the failure is
recorded (result entry not successful, error set) **and** `lastSyncAt` has
been advanced to the current time — the claim asserts it is not advanced. -/
theorem runSync_failure_timestamp_counterexample :
    sampleMapping.lastSyncAt = none ∧
    ((runSync (fun _ => .noResponse "network down") sampleFresh 100
        failedState).1.map SyncResult.success) = [false] ∧
    ((runSync (fun _ => .noResponse "network down") sampleFresh 100
        failedState).2.db.channelMappings.map ChannelMapping.lastSyncAt)
      = [some 100] := by
  refine ⟨rfl, rfl, rfl⟩

/-- Claim C4 (amended): when a sync run's fetch fails, the connection's
`lastSyncError` is set to the failure reason, a failure SyncLog is
appended, and the per-connection result is marked unsuccessful — but the
connection's `lastSyncAt` timestamp is **also** advanced to the current
time, exactly as on a successful run (the source updates it
unconditionally after every `syncCalendar` return); reservations are
untouched. -/
theorem runSync_fetch_failure_behavior (m : ChannelMapping)
    (u url msg : String) (fetches : String → FetchResult)
    (freshUid : Nat → String) (now : Int) (s : SchedulerState)
    (hrun : s.isRunning = false) (hmaps : s.db.channelMappings = [m])
    (hurl : m.iCalUrl = some url) (hu : m.propertyUnits.head? = some u)
    (hf : fetches m.id = .noResponse msg) :
    (runSync fetches freshUid now s).2.db.channelMappings
        = [{ m with lastSyncAt := some now, lastSyncError := some msg }] ∧
    (runSync fetches freshUid now s).2.db.syncLogs
        = s.db.syncLogs ++
          [{ channelMappingId := m.id, status := "failed", eventsFound := 0,
             eventsCreated := 0, eventsUpdated := 0, error := some msg,
             completedAt := now }] ∧
    (runSync fetches freshUid now s).1
        = [{ channelId := m.id, propertyName := m.propertyName,
             channel := m.channel, success := false, eventsAdded := 0,
             eventsUpdated := 0, error := some msg }] ∧
    (runSync fetches freshUid now s).2.db.reservations
        = s.db.reservations := by
  have hred : runSync fetches freshUid now s =
      (([] : List SyncResult) ++
        [{ channelId := m.id, propertyName := m.propertyName,
           channel := m.channel, success := false, eventsAdded := 0,
           eventsUpdated := 0, error := some msg }],
       { isRunning := false, lastRunAt := some now,
         lastResults := [] ++
           [{ channelId := m.id, propertyName := m.propertyName,
              channel := m.channel, success := false, eventsAdded := 0,
              eventsUpdated := 0, error := some msg }],
         db := updateMapping
           (appendSyncLog s.db
             { channelMappingId := m.id, status := "failed", eventsFound := 0,
               eventsCreated := 0, eventsUpdated := 0, error := some msg,
               completedAt := now }) m.id
           (fun mm =>
             { mm with
               lastSyncAt := some now,
               lastSyncError := some msg }) }) := by
    rw [runSync, if_neg (by rw [hrun]; exact Bool.false_ne_true)]
    rw [hmaps]
    rw [List.filter_cons, List.filter_nil]
    rw [if_pos (by rw [hurl]; rfl)]
    simp only [List.foldl_cons, List.foldl_nil]
    rw [processMapping_eq_unit fetches freshUid now ([], s.db) m u hu]
    rw [hf, syncCalendar_noResponse m u url msg freshUid now s.db hurl]
    rfl
  rw [hred]
  refine ⟨?_, rfl, rfl, rfl⟩
  show (updateMapping (appendSyncLog s.db _) m.id _).channelMappings = _
  unfold updateMapping appendSyncLog
  simp [hmaps]

/-- Witness for the C4 amendment at the concrete never-synced state. -/
theorem runSync_fetch_failure_behavior_witness :
    (runSync (fun _ => .noResponse "network down") sampleFresh 100
        failedState).2.db.channelMappings
      = [{ sampleMapping with
           lastSyncAt := some 100,
           lastSyncError := some "network down" }] ∧
    (runSync (fun _ => .noResponse "network down") sampleFresh 100
        failedState).2.db.syncLogs
      = failedState.db.syncLogs ++
        [{ channelMappingId := sampleMapping.id, status := "failed",
           eventsFound := 0, eventsCreated := 0, eventsUpdated := 0,
           error := some "network down", completedAt := 100 }] ∧
    (runSync (fun _ => .noResponse "network down") sampleFresh 100
        failedState).1
      = [{ channelId := sampleMapping.id,
           propertyName := sampleMapping.propertyName,
           channel := sampleMapping.channel, success := false,
           eventsAdded := 0, eventsUpdated := 0,
           error := some "network down" }] ∧
    (runSync (fun _ => .noResponse "network down") sampleFresh 100
        failedState).2.db.reservations = failedState.db.reservations :=
  runSync_fetch_failure_behavior sampleMapping "u1"
    "https://feed.example/cal.ics" "network down"
    (fun _ => .noResponse "network down") sampleFresh 100 failedState
    rfl rfl rfl rfl rfl

/-! ## Claim C5 (corrected).  An unparsable document is swallowed by
`parseICalData` (caught, logged to the console, empty list returned), so
`syncCalendar` reports a *successful* run with zero events. -/

/-- Counterexample for C5: on a document that cannot be parsed, the run
returns `success = true` with no error — the claim asserts
`success = false` with a descriptive error. -/
theorem syncCalendar_unparsable_counterexample :
    (syncCalendar sampleMapping "u1" (.ok .unparsable) sampleFresh 5
        emptyDB).1.success = true ∧
    (syncCalendar sampleMapping "u1" (.ok .unparsable) sampleFresh 5
        emptyDB).1.error = none ∧
    (syncCalendar sampleMapping "u1" (.ok .unparsable) sampleFresh 5
        emptyDB).1.eventsFound = 0 :=
  ⟨rfl, rfl, rfl⟩

/-- Claim C5 (amended): when the fetched document cannot be parsed as
iCalendar, `parseICalData` swallows the parse error and returns an empty
event list, so `syncCalendar` reports a *successful* run — `success =
true`, `eventsFound = 0`, no error, a success SyncLog appended, no
reservation writes — and never surfaces a fault to its caller. -/
theorem syncCalendar_unparsable_behavior (m : ChannelMapping) (u url : String)
    (freshUid : Nat → String) (now : Int) (db : DB)
    (hurl : m.iCalUrl = some url) :
    syncCalendar m u (.ok .unparsable) freshUid now db =
      ({ success := true, eventsFound := 0, eventsCreated := 0,
         eventsUpdated := 0, added := 0, updated := 0, error := none },
       appendSyncLog db
         { channelMappingId := m.id, status := "success", eventsFound := 0,
           eventsCreated := 0, eventsUpdated := 0, error := none,
           completedAt := now }) := by
  simp [syncCalendar, hurl, parseICalData]

/-- Witness for the C5 amendment at a concrete mapping and store. -/
theorem syncCalendar_unparsable_behavior_witness :
    syncCalendar sampleMapping "u1" (.ok .unparsable) sampleFresh 5 emptyDB =
      ({ success := true, eventsFound := 0, eventsCreated := 0,
         eventsUpdated := 0, added := 0, updated := 0, error := none },
       appendSyncLog emptyDB
         { channelMappingId := "cm1", status := "success", eventsFound := 0,
           eventsCreated := 0, eventsUpdated := 0, error := none,
           completedAt := 5 }) :=
  syncCalendar_unparsable_behavior sampleMapping "u1"
    "https://feed.example/cal.ics" sampleFresh 5 emptyDB rfl

/-! ## Claim C6 (corrected).  The update guard compares only
check-in/check-out; the title is not compared, so a title-only change
produces no write. -/

/-- Counterexample for C6: the stored title differs from the fetched one
while the dates are identical; the run performs no update (count 0, row
untouched) — the claim asserts such an event causes an update. -/
theorem syncCalendar_title_only_counterexample :
    oldRes.guestName ≠ "New Name" ∧
    (syncCalendar sampleMapping "u1" (.ok (.parsed [titleVEvent])) sampleFresh 3
        { emptyDB with reservations := [oldRes] }).1.eventsUpdated = 0 ∧
    (syncCalendar sampleMapping "u1" (.ok (.parsed [titleVEvent])) sampleFresh 3
        { emptyDB with reservations := [oldRes] }).2.reservations = [oldRes] :=
  ⟨by decide, rfl, rfl⟩

/-- Claim C6 (amended): for a fetched event whose dedup key matches an
existing reservation, the reconciler updates the row (writing check-in,
check-out **and** guest name from the event) and counts one update exactly
when check-in or check-out differ; when both dates are unchanged the row
is left untouched and nothing is counted, even if the title differs. -/
theorem syncCalendar_update_behavior (m : ChannelMapping) (u url : String)
    (freshUid : Nat → String) (now : Int) (db : DB) (v : VEvent) (s en : Int)
    (r : Reservation) (hurl : m.iCalUrl = some url)
    (hs : v.startDate = some s) (he : v.endDate = some en)
    (hfind : findReservation db m.channel
      (m.channel ++ "-" ++ canonicalUid freshUid 0 v) = some r) :
    ((r.checkIn ≠ s ∨ r.checkOut ≠ en) →
      (syncCalendar m u (.ok (.parsed [v])) freshUid now db).1.eventsUpdated = 1 ∧
      (syncCalendar m u (.ok (.parsed [v])) freshUid now db).1.eventsCreated = 0 ∧
      (syncCalendar m u (.ok (.parsed [v])) freshUid now db).2.reservations =
        (updateReservationRow db r.id s en (canonicalSummary v)).reservations) ∧
    (r.checkIn = s ∧ r.checkOut = en →
      (syncCalendar m u (.ok (.parsed [v])) freshUid now db).1.eventsUpdated = 0 ∧
      (syncCalendar m u (.ok (.parsed [v])) freshUid now db).1.eventsCreated = 0 ∧
      (syncCalendar m u (.ok (.parsed [v])) freshUid now db).2.reservations =
        db.reservations) := by
  constructor
  · intro hcond
    rw [syncCalendar_single_update_changed m u url freshUid now db v s en r
      hurl hs he hfind hcond]
    exact ⟨rfl, rfl, rfl⟩
  · rintro ⟨hci, hco⟩
    rw [syncCalendar_single_update_same m u url freshUid now db v s en r
      hurl hs he hfind hci hco]
    exact ⟨rfl, rfl, rfl⟩

/-- Witness for the C6 amendment: a date change triggers exactly one
in-place update that also rewrites the guest name. -/
theorem syncCalendar_update_behavior_witness :
    (oldRes.checkIn ≠ (5 : Int) ∨ oldRes.checkOut ≠ (12 : Int)) ∧
    (syncCalendar sampleMapping "u1" (.ok (.parsed [movedVEvent])) sampleFresh 4
        { emptyDB with reservations := [oldRes] }).1.eventsUpdated = 1 ∧
    (syncCalendar sampleMapping "u1" (.ok (.parsed [movedVEvent])) sampleFresh 4
        { emptyDB with reservations := [oldRes] }).1.eventsCreated = 0 ∧
    (syncCalendar sampleMapping "u1" (.ok (.parsed [movedVEvent])) sampleFresh 4
        { emptyDB with reservations := [oldRes] }).2.reservations =
      (updateReservationRow { emptyDB with reservations := [oldRes] } oldRes.id
        5 12 (canonicalSummary movedVEvent)).reservations :=
  ⟨by decide,
    (syncCalendar_update_behavior sampleMapping "u1"
      "https://feed.example/cal.ics" sampleFresh 4
      { emptyDB with reservations := [oldRes] } movedVEvent 5 12 oldRes
      rfl rfl rfl (by decide)).1 (by decide)⟩

/-! ## Claim C7 (corrected).  The empty-title fallback written on create is
`"Blocked"`, applied already in `parseICalData`; the `'Guest'` fallback in
the create payload is unreachable for parsed feeds. -/

/-- Counterexample for C7: creating from an event with an empty title
yields guest name `"Blocked"`, not the claimed literal `"Guest"`. -/
theorem syncCalendar_guest_fallback_counterexample :
    ((syncCalendar sampleMapping "u1" (.ok (.parsed [noTitleVEvent]))
        sampleFresh 9 emptyDB).2.reservations.map Reservation.guestName)
      = ["Blocked"] ∧
    ("Blocked" : String) ≠ "Guest" :=
  ⟨rfl, by decide⟩

/-- Claim C7 (amended): a fetched event with no existing reservation under
its dedup key creates a reservation on the target unit with status
`confirmed`, check-in/check-out from the event, and guest name equal to
the parsed title — where `parseICalData` has already replaced a missing or
empty SUMMARY by the literal `"Blocked"`, so the `'Guest'` fallback of the
create payload never applies; the created count is incremented by one. -/
theorem syncCalendar_create_behavior (m : ChannelMapping) (u url : String)
    (freshUid : Nat → String) (now : Int) (db : DB) (v : VEvent) (s en : Int)
    (hurl : m.iCalUrl = some url) (hs : v.startDate = some s)
    (he : v.endDate = some en)
    (hfind : findReservation db m.channel
      (m.channel ++ "-" ++ canonicalUid freshUid 0 v) = none) :
    (syncCalendar m u (.ok (.parsed [v])) freshUid now db).1.eventsCreated = 1 ∧
    (syncCalendar m u (.ok (.parsed [v])) freshUid now db).2.reservations =
      db.reservations ++
        [{ id := "res-" ++ toString db.nextId, unitId := u,
           channel := m.channel,
           externalId := some (m.channel ++ "-" ++ canonicalUid freshUid 0 v),
           guestName := canonicalSummary v, checkIn := s, checkOut := en,
           status := "confirmed" }] := by
  rw [syncCalendar_single_create m u url freshUid now db v s en hurl hs he hfind]
  exact ⟨rfl, rfl⟩

/-- Witness for the C7 amendment: the summary-less event creates one
confirmed reservation whose guest name is `"Blocked"`. -/
theorem syncCalendar_create_behavior_witness :
    (syncCalendar sampleMapping "u1" (.ok (.parsed [noTitleVEvent]))
        sampleFresh 9 emptyDB).1.eventsCreated = 1 ∧
    (syncCalendar sampleMapping "u1" (.ok (.parsed [noTitleVEvent]))
        sampleFresh 9 emptyDB).2.reservations =
      emptyDB.reservations ++
        [{ id := "res-" ++ toString emptyDB.nextId, unitId := "u1",
           channel := sampleMapping.channel,
           externalId := some (sampleMapping.channel ++ "-" ++
             canonicalUid sampleFresh 0 noTitleVEvent),
           guestName := canonicalSummary noTitleVEvent, checkIn := 0,
           checkOut := 5, status := "confirmed" }] :=
  syncCalendar_create_behavior sampleMapping "u1" "https://feed.example/cal.ics"
    sampleFresh 9 emptyDB noTitleVEvent 0 5 rfl rfl rfl rfl

/-! ## Claim C8 (corrected).  The reconciler skips only entries lacking a
resolvable start or end; it never checks that start is strictly before
end, and persists a reservation violating `checkIn < checkOut` as-is. -/

/-- Counterexample for C8: the entry with start 5 and end 3 is neither
rejected nor skipped; one reservation is created with
`checkIn = 5 > checkOut = 3` — the claim asserts such entries are not
persisted. -/
theorem syncCalendar_invalid_interval_counterexample :
    (syncCalendar sampleMapping "u1" (.ok (.parsed [invalidVEvent]))
        sampleFresh 7 emptyDB).1.eventsCreated = 1 ∧
    ((syncCalendar sampleMapping "u1" (.ok (.parsed [invalidVEvent]))
        sampleFresh 7 emptyDB).2.reservations.map
      (fun r => (r.checkIn, r.checkOut))) = [((5 : Int), (3 : Int))] ∧
    ¬((5 : Int) < 3) :=
  ⟨rfl, rfl, by decide⟩

/-- Claim C8 (amended): the reconciler drops only feed entries lacking a
resolvable start or end instant; an entry whose start is not strictly
before its end is still persisted verbatim, so the created reservation
violates `checkIn < checkOut` — the invariant is not enforced by the
reconciler. -/
theorem syncCalendar_no_interval_validation (m : ChannelMapping)
    (u url : String) (freshUid : Nat → String) (now : Int) (db : DB)
    (v : VEvent) (s en : Int) (hurl : m.iCalUrl = some url)
    (hs : v.startDate = some s) (he : v.endDate = some en) (hord : en ≤ s)
    (hfind : findReservation db m.channel
      (m.channel ++ "-" ++ canonicalUid freshUid 0 v) = none) :
    (syncCalendar m u (.ok (.parsed [v])) freshUid now db).1.eventsCreated = 1 ∧
    (∃ r : Reservation,
      (syncCalendar m u (.ok (.parsed [v])) freshUid now db).2.reservations =
        db.reservations ++ [r] ∧
      r.checkIn = s ∧ r.checkOut = en ∧ ¬(r.checkIn < r.checkOut)) ∧
    (∀ w : VEvent, (w.startDate = none ∨ w.endDate = none) →
      parseICalData freshUid (.parsed [w]) = []) := by
  rw [syncCalendar_single_create m u url freshUid now db v s en hurl hs he hfind]
  refine ⟨rfl, ⟨_, rfl, rfl, rfl, ?_⟩, fun w hw => parseICalData_skip freshUid w hw⟩
  show ¬(s < en)
  omega

/-- Witness for the C8 amendment at the inverted-interval event. -/
theorem syncCalendar_no_interval_validation_witness :
    (syncCalendar sampleMapping "u1" (.ok (.parsed [invalidVEvent]))
        sampleFresh 7 emptyDB).1.eventsCreated = 1 ∧
    (∃ r : Reservation,
      (syncCalendar sampleMapping "u1" (.ok (.parsed [invalidVEvent]))
          sampleFresh 7 emptyDB).2.reservations =
        emptyDB.reservations ++ [r] ∧
      r.checkIn = 5 ∧ r.checkOut = 3 ∧ ¬(r.checkIn < r.checkOut)) ∧
    (∀ w : VEvent, (w.startDate = none ∨ w.endDate = none) →
      parseICalData sampleFresh (.parsed [w]) = []) :=
  syncCalendar_no_interval_validation sampleMapping "u1"
    "https://feed.example/cal.ics" sampleFresh 7 emptyDB invalidVEvent 5 3
    rfl rfl rfl (by decide) rfl

/-- Witness for C10: the request overlapping a confirmed reservation is
refused, while the same request against a store holding only an
overlapping block succeeds. -/
theorem createReservation_conflict_policy_witness :
    createReservation "me" requestInput
        { ownedUnitDB with reservations := [existingRes] }
      = .error "Dates conflict with existing reservation" ∧
    (createReservation "me" requestInput
        { ownedUnitDB with blocks := [overlapBlock] }).isOk = true := by
  constructor
  · exact (createReservation_conflict_policy "me" requestInput
      { ownedUnitDB with reservations := [existingRes] } (by decide)).1
      ⟨existingRes, by decide, by decide⟩
  · have h := (createReservation_conflict_policy "me" requestInput
      { ownedUnitDB with blocks := [overlapBlock] } (by decide)).2.1 (by decide)
    rw [h]
    rfl

end UnifiedStay
